import Mathlib

/-!
# Verification of the Telegram exec-approval coordinator

Shallow embedding of `src/telegram/monitor/exec-approvals.ts`.

Modelling conventions:
* JavaScript strings are modelled as `List Char` (`JSString`); the JS string
  primitives used by the source (`slice(0, 8)`, `split(":")`, `startsWith`,
  `includes`, truthiness of a possibly-absent string) are translated into
  small recursive functions below.
* `string | null | undefined` values are modelled as `Option JSString`;
  the JS falsiness check `!s` holds for `none` and for the empty string.
* The JS `RegExp` engine is an external collaborator: it is modelled as a
  parameter `rc : JSString -> Option (JSString -> Bool)`; `rc p = none`
  means `new RegExp(p)` throws (invalid pattern), `rc p = some test` means
  construction succeeds and `test s` is `.test(s)`.
* The handler class state (`pending`, `requestCache`, `shortIdMap`, the
  armed `setTimeout` timers and the gateway connection) is a record
  `HandlerState`; each `Map` is an association list with JS `Map`
  get/set/delete semantics. Side effects that cross the component boundary
  (Telegram sends/edits, gateway resolve calls) are recorded in an `Effect`
  list. Each event handler is one atomic step, matching the single-threaded
  event-loop execution of the source.
-/

/-- A JavaScript string, as its list of characters. -/
abbrev JSString := List Char

/-- JS `s.startsWith(p)`. -/
def listStartsWith : JSString → JSString → Bool
  | _, [] => true
  | [], _ :: _ => false
  | a :: s, b :: p => if a = b then listStartsWith s p else false

/-- JS `s.includes(sub)`: substring containment. -/
def containsSub : JSString → JSString → Bool
  | [], sub => listStartsWith [] sub
  | c :: t, sub => if listStartsWith (c :: t) sub then true else containsSub t sub

/-- JS `s.split(sep)` for a one-character separator. -/
def splitOnChar (sep : Char) : JSString → List JSString
  | [] => [[]]
  | c :: t =>
    if c = sep then [] :: splitOnChar sep t
    else
      match splitOnChar sep t with
      | [] => [[c]]
      | h :: r => (c :: h) :: r

/-- JS truthiness of a `string | null | undefined` value (`!s` is false). -/
def jsTruthy : Option JSString → Bool
  | none => false
  | some [] => false
  | some (_ :: _) => true

/-- JS `arr.includes(x)` / `arr.some((a) => a === x)` on string arrays. -/
def memberStr : List JSString → JSString → Bool
  | [], _ => false
  | a :: t, u => if a = u then true else memberStr t u

/-- The decision type `ExecApprovalDecision`: "allow-once" | "allow-always" | "deny". -/
inductive ExecApprovalDecision where
  | allowOnce
  | allowAlways
  | deny
deriving DecidableEq

/-- Source constant EXEC_APPROVAL_PREFIX = "ea", the marker of exec-approval
callback tokens. -/
def eaMark : JSString := ['e', 'a']

/-- `buildExecApprovalCallbackData(approvalId, action)`:
produces the token `"ea:<first 8 chars of id>:<action char>"`. -/
def buildExecApprovalCallbackData (approvalId : JSString)
    (action : ExecApprovalDecision) : JSString :=
  let shortId := approvalId.take 8
  let actionChar : JSString :=
    match action with
    | .allowOnce => ['o']
    | .allowAlways => ['a']
    | .deny => ['d']
  eaMark ++ [':'] ++ shortId ++ [':'] ++ actionChar

/-- The ternary chain mapping the action character back to a decision
(part of `parseExecApprovalCallbackData`). -/
def decisionOfTag (c : JSString) : Option ExecApprovalDecision :=
  if c = ['o'] then some .allowOnce
  else if c = ['a'] then some .allowAlways
  else if c = ['d'] then some .deny
  else none

/-- `parseExecApprovalCallbackData(data)`: `data` is `string | null | undefined`.
Returns the short id and the decision, or `none` on any malformed input. -/
def parseExecApprovalCallbackData (data : Option JSString) :
    Option (JSString × ExecApprovalDecision) :=
  match data with
  | none => none
  | some d =>
    if d.isEmpty then none
    else if listStartsWith d (eaMark ++ [':']) = false then none
    else
      match splitOnChar ':' d with
      | [_, shortId, actionChar] =>
        match decisionOfTag actionChar with
        | none => none
        | some a => if shortId.isEmpty then none else some (shortId, a)
      | _ => none

/-- The `request` payload of an `ExecApprovalRequest` (optional fields are
`string | null | undefined` in the source). -/
structure ExecApprovalRequestBody where
  command : JSString
  cwd : Option JSString := none
  host : Option JSString := none
  security : Option JSString := none
  ask : Option JSString := none
  agentId : Option JSString := none
  resolvedPath : Option JSString := none
  sessionKey : Option JSString := none
deriving DecidableEq

/-- `ExecApprovalRequest`. -/
structure ExecApprovalRequest where
  id : JSString
  request : ExecApprovalRequestBody
  createdAtMs : Nat
  expiresAtMs : Nat
deriving DecidableEq

/-- `ExecApprovalResolved`. -/
structure ExecApprovalResolved where
  id : JSString
  decision : ExecApprovalDecision
  resolvedBy : Option JSString := none
  ts : Nat := 0
deriving DecidableEq

/-- `TelegramExecApprovalConfig`: the configuration surface consumed by the
handler (`enabled`, `approvers`, `agentFilter`, `sessionFilter`). -/
structure TelegramExecApprovalConfig where
  enabled : Bool
  approvers : Option (List JSString) := none
  agentFilter : Option (List JSString) := none
  sessionFilter : Option (List JSString) := none
deriving DecidableEq

/-- One pattern test of the session filter:
`session.includes(p) || new RegExp(p).test(session)` inside a
`try`, with `catch` falling back to `session.includes(p)`.
`rc` is the external `RegExp` engine (`none` = construction throws). -/
def sessionPatternMatch (rc : JSString → Option (JSString → Bool))
    (session p : JSString) : Bool :=
  match rc p with
  | some test => containsSub session p || test session
  | none => containsSub session p

/-- The `config.agentFilter?.length` block of `shouldHandle`:
if the filter is a nonempty list, the request must carry a truthy `agentId`
that is a member of the list. -/
def agentFilterPasses (config : TelegramExecApprovalConfig)
    (request : ExecApprovalRequest) : Bool :=
  match config.agentFilter with
  | some (f :: fs) =>
    match request.request.agentId with
    | none => false
    | some aid => if aid.isEmpty then false else memberStr (f :: fs) aid
  | _ => true

/-- The `config.sessionFilter?.length` block of `shouldHandle`:
if the filter is a nonempty list, the request must carry a truthy
`sessionKey` matching at least one pattern. -/
def sessionFilterPasses (rc : JSString → Option (JSString → Bool))
    (config : TelegramExecApprovalConfig) (request : ExecApprovalRequest) : Bool :=
  match config.sessionFilter with
  | some (p :: ps) =>
    match request.request.sessionKey with
    | none => false
    | some session =>
      if session.isEmpty then false
      else (p :: ps).any (fun q => sessionPatternMatch rc session q)
  | _ => true

/-- `TelegramExecApprovalHandler.shouldHandle(request)`. -/
def shouldHandle (rc : JSString → Option (JSString → Bool))
    (config : TelegramExecApprovalConfig) (request : ExecApprovalRequest) : Bool :=
  if config.enabled = false then false
  else if (config.approvers.getD []).length = 0 then false
  else if agentFilterPasses config request = false then false
  else if sessionFilterPasses rc config request = false then false
  else true

example : buildExecApprovalCallbackData ("abc12345-6789-def0".toList) .allowOnce
    = "ea:abc12345:o".toList := by decide

example : parseExecApprovalCallbackData (some ("ea:abc12345:o".toList))
    = some ("abc12345".toList, .allowOnce) := by decide

example : parseExecApprovalCallbackData (some ("ea:abc12345:x".toList)) = none := by decide

example : parseExecApprovalCallbackData (some ("ea::o".toList)) = none := by decide

example : parseExecApprovalCallbackData
    (some (buildExecApprovalCallbackData [':'] .deny)) = none := by decide

/-- A `PendingApproval` registry entry: the Telegram message handle of one
notified recipient plus the `setTimeout` handle. -/
structure PendingApproval where
  telegramMessageId : Nat
  telegramChatId : JSString
  timeoutId : Nat
deriving DecidableEq

/-- An armed `setTimeout` timer: its handle, the approval id its callback
captured, and its delay `Math.max(0, expiresAtMs - now)`. -/
structure TimerRec where
  tid : Nat
  approvalId : JSString
  delayMs : Nat
deriving DecidableEq

/-- An observable side effect crossing the component boundary. -/
inductive Effect where
  /-- `api.sendMessage` attempt to a chat for an approval (`ok` = a message
  with a `message_id` came back). -/
  | sentMessage (chatId : JSString) (approvalId : JSString) (ok : Bool)
  /-- `api.editMessageText` attempt: the final-state update pass that also
  removes the inline keyboard. -/
  | editMessage (chatId : JSString) (messageId : Nat)
  /-- `gatewayClient.request("exec.approval.resolve", ...)`. -/
  | gatewayResolve (approvalId : JSString) (decision : ExecApprovalDecision)
deriving DecidableEq

/-- The mutable state of a `TelegramExecApprovalHandler` plus the set of
armed timers of the runtime. -/
structure HandlerState where
  started : Bool
  gatewayClient : Bool
  pending : List (JSString × PendingApproval)
  requestCache : List (JSString × ExecApprovalRequest)
  shortIdMap : List (JSString × JSString)
  armedTimers : List TimerRec
  nextTimerId : Nat
deriving DecidableEq

/-- JS `Map.get`. -/
def mGet {α : Type} : List (JSString × α) → JSString → Option α
  | [], _ => none
  | (k', v) :: t, k => if k' = k then some v else mGet t k

/-- JS `Map.set`. -/
def mSet {α : Type} : List (JSString × α) → JSString → α → List (JSString × α)
  | [], k, v => [(k, v)]
  | (k', v') :: t, k, v => if k' = k then (k, v) :: t else (k', v') :: mSet t k v

/-- JS `Map.delete`. -/
def mDel {α : Type} : List (JSString × α) → JSString → List (JSString × α)
  | [], _ => []
  | (k', v') :: t, k => if k' = k then mDel t k else (k', v') :: mDel t k

/-- `clearTimeout`: the timer with this handle is no longer armed. -/
def clearTimer (timers : List TimerRec) (tid : Nat) : List TimerRec :=
  timers.filter (fun t => decide (t.tid ≠ tid))

/-- The `for (const approver of approvers)` loop of
`handleApprovalRequested`: `sendResult chatId` is the outcome of
`api.sendMessage` (`none` = the call threw or returned no `message_id`).
Each success arms a timer and stores the pending entry. -/
def notifyApprovers (sendResult : JSString → Option Nat) (now : Nat)
    (request : ExecApprovalRequest) :
    List JSString → HandlerState → List Effect → HandlerState × List Effect
  | [], st, effs => (st, effs)
  | approver :: rest, st, effs =>
    match sendResult approver with
    | none =>
      notifyApprovers sendResult now request rest st
        (effs ++ [.sentMessage approver request.id false])
    | some mid =>
      let timeoutMs := request.expiresAtMs - now
      let tid := st.nextTimerId
      let st' : HandlerState :=
        { st with
          nextTimerId := tid + 1
          armedTimers := st.armedTimers ++ [⟨tid, request.id, timeoutMs⟩]
          pending := mSet st.pending request.id ⟨mid, approver, tid⟩ }
      notifyApprovers sendResult now request rest st'
        (effs ++ [.sentMessage approver request.id true])

/-- `handleApprovalRequested(request)`: filter, record the request and its
short-id mapping, then notify every configured approver. -/
def handleApprovalRequested (rc : JSString → Option (JSString → Bool))
    (sendResult : JSString → Option Nat) (now : Nat)
    (config : TelegramExecApprovalConfig) (st : HandlerState)
    (request : ExecApprovalRequest) : HandlerState × List Effect :=
  if shouldHandle rc config request = false then (st, [])
  else
    let st' : HandlerState :=
      { st with
        requestCache := mSet st.requestCache request.id request
        shortIdMap := mSet st.shortIdMap (request.id.take 8) request.id }
    notifyApprovers sendResult now request (config.approvers.getD []) st' []

/-- `handleApprovalResolved(resolved)`: atomic lookup-and-remove of the
pending entry; if present, cancel its timer, drop the caches and update the
recorded message. -/
def handleApprovalResolved (st : HandlerState) (resolved : ExecApprovalResolved) :
    HandlerState × List Effect :=
  match mGet st.pending resolved.id with
  | none => (st, [])
  | some pending =>
    let request := mGet st.requestCache resolved.id
    let st' : HandlerState :=
      { st with
        armedTimers := clearTimer st.armedTimers pending.timeoutId
        pending := mDel st.pending resolved.id
        requestCache := mDel st.requestCache resolved.id
        shortIdMap := mDel st.shortIdMap (resolved.id.take 8) }
    match request with
    | none => (st', [])
    | some _ => (st', [.editMessage pending.telegramChatId pending.telegramMessageId])

/-- `handleApprovalTimeout(approvalId)`: same lookup-and-remove, without a
`clearTimeout` (its own timer has just fired), updating to the expired
message. -/
def handleApprovalTimeout (st : HandlerState) (approvalId : JSString) :
    HandlerState × List Effect :=
  match mGet st.pending approvalId with
  | none => (st, [])
  | some pending =>
    let request := mGet st.requestCache approvalId
    let st' : HandlerState :=
      { st with
        pending := mDel st.pending approvalId
        requestCache := mDel st.requestCache approvalId
        shortIdMap := mDel st.shortIdMap (approvalId.take 8) }
    match request with
    | none => (st', [])
    | some _ => (st', [.editMessage pending.telegramChatId pending.telegramMessageId])

/-- The runtime firing an armed timer: the timer is consumed and its
captured callback `handleApprovalTimeout(request.id)` runs. -/
def fireTimer (st : HandlerState) (tid : Nat) : HandlerState × List Effect :=
  match st.armedTimers.find? (fun t => decide (t.tid = tid)) with
  | none => (st, [])
  | some t =>
    let st' : HandlerState := { st with armedTimers := clearTimer st.armedTimers tid }
    handleApprovalTimeout st' t.approvalId

/-- `stop()`: clear every pending timeout, clear all indices and drop the
gateway client. -/
def stop (st : HandlerState) : HandlerState :=
  if st.started = false then st
  else
    let cancelledIds := st.pending.map (fun kv => kv.2.timeoutId)
    { st with
      started := false
      gatewayClient := false
      armedTimers := st.armedTimers.filter (fun t => !(cancelledIds.contains t.tid))
      pending := []
      requestCache := []
      shortIdMap := [] }

/-- `resolveApproval(approvalId, decision)`: issue the gateway resolve
request; `gatewayOk` is whether the gateway acknowledges it. -/
def resolveApproval (gatewayOk : Bool) (st : HandlerState)
    (approvalId : JSString) (decision : ExecApprovalDecision) : Bool × List Effect :=
  if st.gatewayClient = false then (false, [])
  else if gatewayOk then (true, [.gatewayResolve approvalId decision])
  else (false, [.gatewayResolve approvalId decision])

/-- `handleCallbackQuery(shortId, action, userId)`: map the short id to the
full id, authorize the invoking user, then ask the origin to resolve. -/
def handleCallbackQuery (config : TelegramExecApprovalConfig) (gatewayOk : Bool)
    (st : HandlerState) (shortId : JSString) (action : ExecApprovalDecision)
    (userId : Option JSString) : Bool × List Effect :=
  match mGet st.shortIdMap shortId with
  | none => (false, [])
  | some fullId =>
    if jsTruthy userId && !(memberStr (config.approvers.getD []) (userId.getD [])) then
      (false, [])
    else resolveApproval gatewayOk st fullId action

/-- The handler state right after a successful `start()` with an enabled,
configured handler: connected, no outstanding approvals. -/
def initState : HandlerState :=
  { started := true
    gatewayClient := true
    pending := []
    requestCache := []
    shortIdMap := []
    armedTimers := []
    nextTimerId := 0 }

/-- One event delivered to the coordinator: an upstream `requested` event
(with the per-recipient send outcomes and the current time), an upstream
`resolved` event, an armed timer firing, or `stop()`. -/
inductive Op where
  | accept (request : ExecApprovalRequest) (sendResult : JSString → Option Nat) (now : Nat)
  | resolved (r : ExecApprovalResolved)
  | fire (tid : Nat)
  | stopOp

/-- Run one event against the handler state. -/
def step (rc : JSString → Option (JSString → Bool))
    (config : TelegramExecApprovalConfig) (st : HandlerState) :
    Op → HandlerState × List Effect
  | .accept request sendResult now =>
    handleApprovalRequested rc sendResult now config st request
  | .resolved r => handleApprovalResolved st r
  | .fire tid => fireTimer st tid
  | .stopOp => (stop st, [])

/-- Run a sequence of events. -/
def runOps (rc : JSString → Option (JSString → Bool))
    (config : TelegramExecApprovalConfig) (st : HandlerState) :
    List Op → HandlerState
  | [] => st
  | op :: rest => runOps rc config (step rc config st op).1 rest

/-- How many of the configured approvers a `requested` event successfully
notifies. -/
def successCount (sendResult : JSString → Option Nat) (approvers : List JSString) : Nat :=
  (approvers.filter (fun a => (sendResult a).isSome)).length

/-- A trace is good when every `requested` event concerns an id that is not
currently pending and notifies at most one recipient successfully. -/
def goodOps (rc : JSString → Option (JSString → Bool))
    (config : TelegramExecApprovalConfig) (st : HandlerState) :
    List Op → Bool
  | [] => true
  | op :: rest =>
    let ok :=
      match op with
      | .accept request sendResult _ =>
        (mGet st.pending request.id).isNone &&
          decide (successCount sendResult (config.approvers.getD []) ≤ 1)
      | _ => true
    ok && goodOps rc config (step rc config st op).1 rest

/-- No armed timer references a request without a pending entry. -/
def noDanglingTimers (st : HandlerState) : Bool :=
  st.armedTimers.all (fun t => (mGet st.pending t.approvalId).isSome)

/-- Every armed timer is exactly the timer recorded in the pending entry of
the request it references (the inductive strengthening of
`noDanglingTimers`). -/
def timersExact (st : HandlerState) : Bool :=
  st.armedTimers.all (fun t =>
    match mGet st.pending t.approvalId with
    | some e => decide (e.timeoutId = t.tid)
    | none => false)

/-- The last recipient of the list for which the send succeeded, with its
message id. -/
def lastSuccess (sendResult : JSString → Option Nat) :
    List JSString → Option (JSString × Nat)
  | [] => none
  | a :: rest =>
    match lastSuccess sendResult rest with
    | some r => some r
    | none => (sendResult a).map (fun mid => (a, mid))

section MapLemmas

variable {α : Type}

theorem mGet_mSet_self (m : List (JSString × α)) (k : JSString) (v : α) :
    mGet (mSet m k v) k = some v := by
  induction m with
  | nil => simp [mSet, mGet]
  | cons hd t ih =>
    by_cases h : hd.1 = k
    · simp [mSet, h, mGet]
    · simp [mSet, h, mGet, ih]

theorem mGet_mSet_ne (m : List (JSString × α)) {k k' : JSString} (v : α)
    (h : k' ≠ k) : mGet (mSet m k' v) k = mGet m k := by
  induction m with
  | nil => simp [mSet, mGet, h]
  | cons hd t ih =>
    by_cases h1 : hd.1 = k'
    · simp [mSet, h1, mGet, h]
    · simp [mSet, h1, mGet, ih]

theorem mGet_mDel_self (m : List (JSString × α)) (k : JSString) :
    mGet (mDel m k) k = none := by
  induction m with
  | nil => simp [mDel, mGet]
  | cons hd t ih =>
    by_cases h : hd.1 = k
    · simp [mDel, h, ih]
    · simp [mDel, h, mGet, ih]

theorem mGet_mDel_ne (m : List (JSString × α)) {k k' : JSString}
    (h : k' ≠ k) : mGet (mDel m k') k = mGet m k := by
  induction m with
  | nil => simp [mDel]
  | cons hd t ih =>
    obtain ⟨k0, v0⟩ := hd
    by_cases h1 : k0 = k'
    · simp [mDel, mGet, h1, h, ih]
    · by_cases h3 : k0 = k
      · have h4 : ¬k = k' := by rw [← h3]; exact h1
        simp [mDel, mGet, h1, h3, h4]
      · simp [mDel, mGet, h1, h3, ih]

theorem mGet_mem {m : List (JSString × α)} {k : JSString} {v : α}
    (h : mGet m k = some v) : (k, v) ∈ m := by
  induction m with
  | nil => simp [mGet] at h
  | cons hd t ih =>
    obtain ⟨k0, v0⟩ := hd
    by_cases h1 : k0 = k
    · simp only [mGet, if_pos h1, Option.some.injEq] at h
      simp [h1, h, List.mem_cons]
    · simp only [mGet, if_neg h1] at h
      exact List.mem_cons_of_mem _ (ih h)

end MapLemmas

section SplitLemmas

theorem splitOnChar_ne_nil (sep : Char) (s : JSString) : splitOnChar sep s ≠ [] := by
  cases s with
  | nil => simp [splitOnChar]
  | cons c t =>
    by_cases h : c = sep
    · simp [splitOnChar, h]
    · simp only [splitOnChar, if_neg h]
      cases splitOnChar sep t <;> simp

theorem splitOnChar_no_sep {sep : Char} {s : JSString} (h : sep ∉ s) :
    splitOnChar sep s = [s] := by
  induction s with
  | nil => simp [splitOnChar]
  | cons c t ih =>
    have hc : c ≠ sep := fun hcs => h (hcs ▸ List.mem_cons_self c t)
    have ht : sep ∉ t := fun hts => h (List.mem_cons_of_mem c hts)
    simp [splitOnChar, hc, ih ht]

theorem splitOnChar_append_sep {sep : Char} {s : JSString} (r : JSString)
    (h : sep ∉ s) : splitOnChar sep (s ++ sep :: r) = s :: splitOnChar sep r := by
  induction s with
  | nil => simp [splitOnChar]
  | cons c t ih =>
    have hc : c ≠ sep := fun hcs => h (hcs ▸ List.mem_cons_self c t)
    have ht : sep ∉ t := fun hts => h (List.mem_cons_of_mem c hts)
    simp only [List.cons_append, splitOnChar, if_neg hc, List.append_eq, ih ht]

end SplitLemmas

section HandlerLemmas

theorem handleApprovalResolved_none {st : HandlerState} {r : ExecApprovalResolved}
    (hp : mGet st.pending r.id = none) : handleApprovalResolved st r = (st, []) := by
  unfold handleApprovalResolved
  rw [hp]

theorem handleApprovalResolved_state {st : HandlerState} {r : ExecApprovalResolved}
    {e : PendingApproval} (hp : mGet st.pending r.id = some e) :
    (handleApprovalResolved st r).1 =
      { st with
        armedTimers := clearTimer st.armedTimers e.timeoutId
        pending := mDel st.pending r.id
        requestCache := mDel st.requestCache r.id
        shortIdMap := mDel st.shortIdMap (r.id.take 8) } := by
  unfold handleApprovalResolved
  rw [hp]
  cases mGet st.requestCache r.id <;> rfl

theorem handleApprovalResolved_effects {st : HandlerState} {r : ExecApprovalResolved}
    {e : PendingApproval} {req : ExecApprovalRequest}
    (hp : mGet st.pending r.id = some e) (hc : mGet st.requestCache r.id = some req) :
    (handleApprovalResolved st r).2 =
      [Effect.editMessage e.telegramChatId e.telegramMessageId] := by
  unfold handleApprovalResolved
  rw [hp]
  simp only [hc]

theorem handleApprovalTimeout_none {st : HandlerState} {approvalId : JSString}
    (hp : mGet st.pending approvalId = none) :
    handleApprovalTimeout st approvalId = (st, []) := by
  unfold handleApprovalTimeout
  rw [hp]

theorem handleApprovalTimeout_state {st : HandlerState} {approvalId : JSString}
    {e : PendingApproval} (hp : mGet st.pending approvalId = some e) :
    (handleApprovalTimeout st approvalId).1 =
      { st with
        pending := mDel st.pending approvalId
        requestCache := mDel st.requestCache approvalId
        shortIdMap := mDel st.shortIdMap (approvalId.take 8) } := by
  unfold handleApprovalTimeout
  rw [hp]
  cases mGet st.requestCache approvalId <;> rfl

theorem handleApprovalTimeout_effects {st : HandlerState} {approvalId : JSString}
    {e : PendingApproval} {req : ExecApprovalRequest}
    (hp : mGet st.pending approvalId = some e)
    (hc : mGet st.requestCache approvalId = some req) :
    (handleApprovalTimeout st approvalId).2 =
      [Effect.editMessage e.telegramChatId e.telegramMessageId] := by
  unfold handleApprovalTimeout
  rw [hp]
  simp only [hc]

end HandlerLemmas

section NotifyLemmas

variable (sr : JSString → Option Nat) (now : Nat) (req : ExecApprovalRequest)

theorem notify_requestCache (l : List JSString) : ∀ st effs,
    (notifyApprovers sr now req l st effs).1.requestCache = st.requestCache := by
  induction l with
  | nil => intro st effs; rfl
  | cons a rest ih =>
    intro st effs
    cases h : sr a with
    | none => simp only [notifyApprovers, h]; exact ih _ _
    | some mid => simp only [notifyApprovers, h]; exact ih _ _

theorem notify_shortIdMap (l : List JSString) : ∀ st effs,
    (notifyApprovers sr now req l st effs).1.shortIdMap = st.shortIdMap := by
  induction l with
  | nil => intro st effs; rfl
  | cons a rest ih =>
    intro st effs
    cases h : sr a with
    | none => simp only [notifyApprovers, h]; exact ih _ _
    | some mid => simp only [notifyApprovers, h]; exact ih _ _

theorem notify_gatewayClient (l : List JSString) : ∀ st effs,
    (notifyApprovers sr now req l st effs).1.gatewayClient = st.gatewayClient := by
  induction l with
  | nil => intro st effs; rfl
  | cons a rest ih =>
    intro st effs
    cases h : sr a with
    | none => simp only [notifyApprovers, h]; exact ih _ _
    | some mid => simp only [notifyApprovers, h]; exact ih _ _

theorem notify_all_fail (l : List JSString) : ∀ st effs, (∀ a ∈ l, sr a = none) →
    (notifyApprovers sr now req l st effs).1 = st := by
  induction l with
  | nil => intro st effs _; rfl
  | cons a rest ih =>
    intro st effs h
    have ha : sr a = none := h a (List.mem_cons_self a rest)
    simp only [notifyApprovers, ha]
    exact ih _ _ (fun b hb => h b (List.mem_cons_of_mem a hb))

/-- The notification handle recorded in a pending entry. -/
def projCM (e : PendingApproval) : JSString × Nat :=
  (e.telegramChatId, e.telegramMessageId)

theorem notify_pending (l : List JSString) : ∀ st effs,
    (mGet (notifyApprovers sr now req l st effs).1.pending req.id).map projCM =
      (match lastSuccess sr l with
       | some cm => some cm
       | none => (mGet st.pending req.id).map projCM) := by
  induction l with
  | nil => intro st effs; rfl
  | cons a rest ih =>
    intro st effs
    cases h : sr a with
    | none =>
      simp only [notifyApprovers, h, lastSuccess]
      rw [ih]
      cases lastSuccess sr rest <;> simp
    | some mid =>
      simp only [notifyApprovers, h, lastSuccess]
      rw [ih]
      cases hls : lastSuccess sr rest with
      | some r => simp
      | none =>
        simp only [Option.map_some']
        rw [mGet_mSet_self]
        rfl

end NotifyLemmas

section TimerInvariant

/-- Propositional form of `timersExact`: every armed timer is exactly the
timer stored in the pending entry of the request it references. -/
def timersOk (st : HandlerState) : Prop :=
  ∀ t ∈ st.armedTimers,
    ∃ e, mGet st.pending t.approvalId = some e ∧ e.timeoutId = t.tid

theorem timersOk_noDangling {st : HandlerState} (h : timersOk st) :
    noDanglingTimers st = true := by
  unfold noDanglingTimers
  rw [List.all_eq_true]
  intro t ht
  obtain ⟨e, he, _⟩ := h t ht
  simp [he]

theorem notify_timersOk (sr : JSString → Option Nat) (now : Nat)
    (req : ExecApprovalRequest) (l : List JSString) : ∀ st effs, timersOk st →
    successCount sr l ≤ 1 →
    (successCount sr l = 1 → mGet st.pending req.id = none) →
    timersOk (notifyApprovers sr now req l st effs).1 := by
  induction l with
  | nil => intro st effs h _ _; exact h
  | cons a rest ih =>
    intro st effs h hc h1
    cases ha : sr a with
    | none =>
      have hcc : successCount sr (a :: rest) = successCount sr rest := by
        simp [successCount, List.filter_cons, ha]
      simp only [notifyApprovers, ha]
      exact ih _ _ h (hcc ▸ hc) (fun hone => h1 (hcc ▸ hone))
    | some mid =>
      have hcc : successCount sr (a :: rest) = successCount sr rest + 1 := by
        simp [successCount, List.filter_cons, ha]
      have hrest0 : successCount sr rest = 0 := by omega
      have hone : successCount sr (a :: rest) = 1 := by omega
      have hpend : mGet st.pending req.id = none := h1 hone
      simp only [notifyApprovers, ha]
      apply ih _ _ _ (by omega) (fun hcontra => absurd hcontra (by omega))
      intro t ht
      rcases List.mem_append.mp ht with htm | htT
      · obtain ⟨e, he, hid⟩ := h t htm
        have hne : req.id ≠ t.approvalId := by
          intro hEq
          rw [← hEq, hpend] at he
          exact Option.noConfusion he
        refine ⟨e, ?_, hid⟩
        show mGet (mSet st.pending req.id ⟨mid, a, st.nextTimerId⟩) t.approvalId = some e
        rw [mGet_mSet_ne _ _ hne]
        exact he
      · have htT' : t = ⟨st.nextTimerId, req.id, req.expiresAtMs - now⟩ := by
          simpa using htT
        subst htT'
        exact ⟨⟨mid, a, st.nextTimerId⟩, mGet_mSet_self _ _ _, rfl⟩

theorem accept_timersOk {rc : JSString → Option (JSString → Bool)}
    {config : TelegramExecApprovalConfig} {st : HandlerState}
    {request : ExecApprovalRequest} {sr : JSString → Option Nat} {now : Nat}
    (h : timersOk st) (hnone : mGet st.pending request.id = none)
    (hcnt : successCount sr (config.approvers.getD []) ≤ 1) :
    timersOk (handleApprovalRequested rc sr now config st request).1 := by
  unfold handleApprovalRequested
  by_cases hs : shouldHandle rc config request = false
  · simp only [hs, if_true]
    exact h
  · simp only [hs, if_false]
    exact notify_timersOk sr now request _ _ _ h hcnt (fun _ => hnone)

theorem resolved_timersOk (st : HandlerState) (r : ExecApprovalResolved)
    (h : timersOk st) : timersOk (handleApprovalResolved st r).1 := by
  cases hp : mGet st.pending r.id with
  | none => rw [handleApprovalResolved_none hp]; exact h
  | some e =>
    rw [handleApprovalResolved_state hp]
    intro t ht
    have ht' : t ∈ st.armedTimers ∧ t.tid ≠ e.timeoutId := by
      simpa [clearTimer, List.mem_filter] using ht
    obtain ⟨e', he', hid'⟩ := h t ht'.1
    have hne : r.id ≠ t.approvalId := by
      intro hEq
      rw [← hEq, hp] at he'
      injection he' with hv
      have het : e.timeoutId = t.tid := by rw [hv]; exact hid'
      exact ht'.2 het.symm
    refine ⟨e', ?_, hid'⟩
    show mGet (mDel st.pending r.id) t.approvalId = some e'
    rw [mGet_mDel_ne _ hne]
    exact he'

theorem fire_timersOk (st : HandlerState) (tid : Nat) (h : timersOk st) :
    timersOk (fireTimer st tid).1 := by
  unfold fireTimer
  cases hf : st.armedTimers.find? (fun t => decide (t.tid = tid)) with
  | none => exact h
  | some t =>
    have htmem : t ∈ st.armedTimers := List.mem_of_find?_eq_some hf
    have htid : t.tid = tid := by
      have := List.find?_some hf
      simpa using this
    obtain ⟨e, he, hid⟩ := h t htmem
    have hp' : mGet (HandlerState.mk st.started st.gatewayClient st.pending
        st.requestCache st.shortIdMap (clearTimer st.armedTimers tid)
        st.nextTimerId).pending t.approvalId = some e := he
    rw [handleApprovalTimeout_state hp']
    intro t' ht'
    have ht'' : t' ∈ st.armedTimers ∧ t'.tid ≠ tid := by
      simpa [clearTimer, List.mem_filter] using ht'
    obtain ⟨e', he', hid'⟩ := h t' ht''.1
    have hne : t.approvalId ≠ t'.approvalId := by
      intro hEq
      rw [← hEq, he] at he'
      injection he' with hv
      have ht'id : t'.tid = tid := by rw [← hid', ← hv, hid, htid]
      exact ht''.2 ht'id
    refine ⟨e', ?_, hid'⟩
    show mGet (mDel st.pending t.approvalId) t'.approvalId = some e'
    rw [mGet_mDel_ne _ hne]
    exact he'

theorem stop_timersOk (st : HandlerState) (h : timersOk st) : timersOk (stop st) := by
  unfold stop
  by_cases hs : st.started = false
  · rw [if_pos hs]
    exact h
  · rw [if_neg hs]
    intro t ht
    exfalso
    rw [List.mem_filter] at ht
    obtain ⟨htm, hpred⟩ := ht
    obtain ⟨e, he, hid⟩ := h t htm
    have hmem : (t.approvalId, e) ∈ st.pending := mGet_mem he
    have htid : t.tid ∈ st.pending.map (fun kv => kv.2.timeoutId) := by
      rw [← hid]
      exact List.mem_map_of_mem _ hmem
    have : (st.pending.map (fun kv => kv.2.timeoutId)).contains t.tid = true := by
      rw [List.contains_eq_any_beq]
      rw [List.any_eq_true]
      exact ⟨t.tid, htid, by simp⟩
    rw [this] at hpred
    exact absurd hpred (by decide)

theorem goodOps_timersOk (rc : JSString → Option (JSString → Bool))
    (config : TelegramExecApprovalConfig) :
    ∀ (ops : List Op) (st : HandlerState), timersOk st →
      goodOps rc config st ops = true →
      timersOk (runOps rc config st ops) := by
  intro ops
  induction ops with
  | nil => intro st h _; exact h
  | cons op rest ih =>
    intro st h hg
    cases op with
    | accept request sr' now' =>
      simp only [goodOps, Bool.and_eq_true, decide_eq_true_eq,
        Option.isNone_iff_eq_none] at hg
      obtain ⟨⟨hnone, hcnt⟩, hrest⟩ := hg
      exact ih _ (accept_timersOk h hnone hcnt) hrest
    | resolved r =>
      simp only [goodOps, Bool.true_and] at hg
      exact ih _ (resolved_timersOk _ _ h) hg
    | fire tid =>
      simp only [goodOps, Bool.true_and] at hg
      exact ih _ (fire_timersOk _ _ h) hg
    | stopOp =>
      simp only [goodOps, Bool.true_and] at hg
      exact ih _ (stop_timersOk _ h) hg

end TimerInvariant

/-! ## Concrete fixtures used by witnesses and counterexamples -/

/-- A RegExp engine in which every pattern fails to construct. -/
def rcNone : JSString → Option (JSString → Bool) := fun _ => none

/-- Config with a single approver. -/
def cfgOne : TelegramExecApprovalConfig :=
  { enabled := true, approvers := some ["1".toList] }

/-- Config with two approvers. -/
def cfgTwo : TelegramExecApprovalConfig :=
  { enabled := true, approvers := some ["1".toList, "2".toList] }

/-- A concrete approval request. -/
def reqA : ExecApprovalRequest :=
  { id := "abcd1234-alpha".toList
    request := { command := "ls".toList }
    createdAtMs := 0
    expiresAtMs := 60000 }

/-- A second request whose id shares the first 8 characters with `reqA`. -/
def reqB : ExecApprovalRequest :=
  { id := "abcd1234-beta".toList
    request := { command := "pwd".toList }
    createdAtMs := 0
    expiresAtMs := 60000 }

/-- Send outcome: every send succeeds with message id 5. -/
def srOk : JSString → Option Nat := fun _ => some 5

/-- Send outcome: every send fails. -/
def srFail : JSString → Option Nat := fun _ => none

/-- A state with `reqA` pending for chat "1" (message 5, timer 0). -/
def stA : HandlerState :=
  { started := true
    gatewayClient := true
    pending := [(reqA.id, ⟨5, "1".toList, 0⟩)]
    requestCache := [(reqA.id, reqA)]
    shortIdMap := [(reqA.id.take 8, reqA.id)]
    armedTimers := [⟨0, reqA.id, 60000⟩]
    nextTimerId := 1 }

/-- A resolution record for `reqA`. -/
def resA : ExecApprovalResolved := ⟨reqA.id, .allowOnce, none, 0⟩

/-! ## Claim C1 -/

/-- C1: for a request id with a pending entry (and cached request), applying
the remote-resolution handler and the timeout handler in either order makes
exactly the first of them observe and remove the pending entry and emit
exactly one message-update pass, while the second is a no-op; and on a state
with no pending entry for the id, both handlers change nothing. -/
theorem c1_resolution_timeout_race (st : HandlerState) (r : ExecApprovalResolved)
    (e : PendingApproval) (req : ExecApprovalRequest) (st2 : HandlerState)
    (hp : mGet st.pending r.id = some e)
    (hc : mGet st.requestCache r.id = some req)
    (hnone : mGet st2.pending r.id = none) :
    ((handleApprovalResolved st r).2
        = [Effect.editMessage e.telegramChatId e.telegramMessageId]
      ∧ mGet (handleApprovalResolved st r).1.pending r.id = none
      ∧ handleApprovalTimeout (handleApprovalResolved st r).1 r.id
          = ((handleApprovalResolved st r).1, []))
    ∧ ((handleApprovalTimeout st r.id).2
        = [Effect.editMessage e.telegramChatId e.telegramMessageId]
      ∧ mGet (handleApprovalTimeout st r.id).1.pending r.id = none
      ∧ handleApprovalResolved (handleApprovalTimeout st r.id).1 r
          = ((handleApprovalTimeout st r.id).1, []))
    ∧ handleApprovalResolved st2 r = (st2, [])
    ∧ handleApprovalTimeout st2 r.id = (st2, []) := by
  have hres1 : mGet (handleApprovalResolved st r).1.pending r.id = none := by
    rw [handleApprovalResolved_state hp]
    exact mGet_mDel_self _ _
  have htim1 : mGet (handleApprovalTimeout st r.id).1.pending r.id = none := by
    rw [handleApprovalTimeout_state hp]
    exact mGet_mDel_self _ _
  exact ⟨⟨handleApprovalResolved_effects hp hc, hres1, handleApprovalTimeout_none hres1⟩,
    ⟨handleApprovalTimeout_effects hp hc, htim1, handleApprovalResolved_none htim1⟩,
    handleApprovalResolved_none hnone, handleApprovalTimeout_none hnone⟩

/-- C1 witness: the theorem applied at `stA` / `resA` / the empty-registry
state. -/
theorem c1_witness :
    (mGet stA.pending resA.id = some ⟨5, "1".toList, 0⟩
      ∧ mGet stA.requestCache resA.id = some reqA
      ∧ mGet initState.pending resA.id = none)
    ∧ ((handleApprovalResolved stA resA).2
        = [Effect.editMessage ("1".toList) 5]
      ∧ mGet (handleApprovalResolved stA resA).1.pending resA.id = none
      ∧ handleApprovalTimeout (handleApprovalResolved stA resA).1 resA.id
          = ((handleApprovalResolved stA resA).1, []))
    ∧ handleApprovalResolved initState resA = (initState, []) :=
  ⟨⟨by decide, by decide, by decide⟩,
    (c1_resolution_timeout_race stA resA ⟨5, "1".toList, 0⟩ reqA initState
      (by decide) (by decide) (by decide)).1,
    (c1_resolution_timeout_race stA resA ⟨5, "1".toList, 0⟩ reqA initState
      (by decide) (by decide) (by decide)).2.2.1⟩

/-! ## Claims C2 and C8 -/

/-- C2: a callback whose short id maps to a pending request, invoked by a
user (truthy user id) who is not in the configured approver list, is
ignored: the handler reports failure and emits no effect, in particular no
gateway resolve request. -/
theorem c2_unauthorized_callback_ignored (config : TelegramExecApprovalConfig)
    (gatewayOk : Bool) (st : HandlerState) (shortId fullId : JSString)
    (e : PendingApproval) (action : ExecApprovalDecision) (u : JSString)
    (hmap : mGet st.shortIdMap shortId = some fullId)
    (hpend : mGet st.pending fullId = some e)
    (hu : u ≠ [])
    (hnm : memberStr (config.approvers.getD []) u = false) :
    handleCallbackQuery config gatewayOk st shortId action (some u) = (false, []) := by
  unfold handleCallbackQuery
  rw [hmap]
  have ht : jsTruthy (some u) = true := by
    cases u with
    | nil => exact absurd rfl hu
    | cons c t => rfl
  simp [ht, hnm]

/-- C2 witness: user "9" is not an approver of `cfgOne`; the pending short
id of `reqA` resolves to nothing. -/
theorem c2_witness :
    (mGet stA.shortIdMap (reqA.id.take 8) = some reqA.id
      ∧ mGet stA.pending reqA.id = some ⟨5, "1".toList, 0⟩
      ∧ memberStr (cfgOne.approvers.getD []) ("9".toList) = false)
    ∧ handleCallbackQuery cfgOne true stA (reqA.id.take 8) .deny (some ("9".toList))
        = (false, []) :=
  ⟨⟨by decide, by decide, by decide⟩,
    c2_unauthorized_callback_ignored cfgOne true stA (reqA.id.take 8) reqA.id
      ⟨5, "1".toList, 0⟩ .deny ("9".toList) (by decide) (by decide) (by decide) (by decide)⟩

/-- C8: a callback whose short id maps to a pending request but that carries
no user id skips the authorization check entirely and proceeds to issue the
gateway resolve request. -/
theorem c8_absent_user_skips_authorization (config : TelegramExecApprovalConfig)
    (gatewayOk : Bool) (st : HandlerState) (shortId fullId : JSString)
    (e : PendingApproval) (action : ExecApprovalDecision)
    (hmap : mGet st.shortIdMap shortId = some fullId)
    (hpend : mGet st.pending fullId = some e)
    (hgw : st.gatewayClient = true) :
    handleCallbackQuery config gatewayOk st shortId action none
      = (gatewayOk, [Effect.gatewayResolve fullId action]) := by
  unfold handleCallbackQuery
  rw [hmap]
  simp only [jsTruthy, Bool.false_and, if_false]
  unfold resolveApproval
  rw [hgw]
  cases gatewayOk <;> simp

/-- C8 witness: a callback with no user id on the pending short id of `reqA`
issues the gateway resolve request. -/
theorem c8_witness :
    (mGet stA.shortIdMap (reqA.id.take 8) = some reqA.id
      ∧ mGet stA.pending reqA.id = some ⟨5, "1".toList, 0⟩
      ∧ stA.gatewayClient = true)
    ∧ handleCallbackQuery cfgOne true stA (reqA.id.take 8) .allowOnce none
        = (true, [Effect.gatewayResolve reqA.id .allowOnce]) :=
  ⟨⟨by decide, by decide, by decide⟩,
    c8_absent_user_skips_authorization cfgOne true stA (reqA.id.take 8) reqA.id
      ⟨5, "1".toList, 0⟩ .allowOnce (by decide) (by decide) (by decide)⟩

/-! ## Claim C9 -/

/-- C9: resolving or timing out request A unconditionally deletes the
short-id index entry for A's 8-character prefix, even when that entry
currently maps the prefix to a different, still-pending request B sharing
the prefix; afterwards B is unreachable via inbound callbacks. -/
theorem c9_collision_delete_orphans_survivor (st : HandlerState) (A B p : JSString)
    (eA eB : PendingApproval) (d : ExecApprovalDecision)
    (config : TelegramExecApprovalConfig) (gatewayOk : Bool)
    (action : ExecApprovalDecision) (userId : Option JSString)
    (hpA : mGet st.pending A = some eA)
    (hpB : mGet st.pending B = some eB)
    (hA : A.take 8 = p) (hB : B.take 8 = p)
    (hne : A ≠ B)
    (hmap : mGet st.shortIdMap p = some B) :
    (mGet (handleApprovalResolved st ⟨A, d, none, 0⟩).1.shortIdMap p = none
      ∧ mGet (handleApprovalResolved st ⟨A, d, none, 0⟩).1.pending B = some eB
      ∧ handleCallbackQuery config gatewayOk
          (handleApprovalResolved st ⟨A, d, none, 0⟩).1 p action userId = (false, []))
    ∧ (mGet (handleApprovalTimeout st A).1.shortIdMap p = none
      ∧ mGet (handleApprovalTimeout st A).1.pending B = some eB
      ∧ handleCallbackQuery config gatewayOk
          (handleApprovalTimeout st A).1 p action userId = (false, [])) := by
  have h1 : mGet (handleApprovalResolved st ⟨A, d, none, 0⟩).1.shortIdMap p = none := by
    rw [handleApprovalResolved_state hpA]
    show mGet (mDel st.shortIdMap (A.take 8)) p = none
    rw [hA]
    exact mGet_mDel_self _ _
  have h2 : mGet (handleApprovalResolved st ⟨A, d, none, 0⟩).1.pending B = some eB := by
    rw [handleApprovalResolved_state hpA]
    show mGet (mDel st.pending A) B = some eB
    rw [mGet_mDel_ne _ hne]
    exact hpB
  have h3 : handleCallbackQuery config gatewayOk
      (handleApprovalResolved st ⟨A, d, none, 0⟩).1 p action userId = (false, []) := by
    unfold handleCallbackQuery
    rw [h1]
  have h4 : mGet (handleApprovalTimeout st A).1.shortIdMap p = none := by
    rw [handleApprovalTimeout_state hpA]
    show mGet (mDel st.shortIdMap (A.take 8)) p = none
    rw [hA]
    exact mGet_mDel_self _ _
  have h5 : mGet (handleApprovalTimeout st A).1.pending B = some eB := by
    rw [handleApprovalTimeout_state hpA]
    show mGet (mDel st.pending A) B = some eB
    rw [mGet_mDel_ne _ hne]
    exact hpB
  have h6 : handleCallbackQuery config gatewayOk
      (handleApprovalTimeout st A).1 p action userId = (false, []) := by
    unfold handleCallbackQuery
    rw [h4]
  exact ⟨⟨h1, h2, h3⟩, ⟨h4, h5, h6⟩⟩

/-- The state in which both `reqA` and `reqB` are pending and the short-id
index maps their shared prefix to `reqB` (the later insertion). -/
def stAB : HandlerState :=
  { started := true
    gatewayClient := true
    pending := [(reqA.id, ⟨5, "1".toList, 0⟩), (reqB.id, ⟨6, "1".toList, 1⟩)]
    requestCache := [(reqA.id, reqA), (reqB.id, reqB)]
    shortIdMap := [(reqA.id.take 8, reqB.id)]
    armedTimers := [⟨0, reqA.id, 60000⟩, ⟨1, reqB.id, 60000⟩]
    nextTimerId := 2 }

/-- C9 witness: resolving `reqA` in `stAB` deletes the shared mapping, so
the still-pending `reqB` is unreachable. -/
theorem c9_witness :
    (mGet stAB.pending reqA.id = some ⟨5, "1".toList, 0⟩
      ∧ mGet stAB.pending reqB.id = some ⟨6, "1".toList, 1⟩
      ∧ reqA.id.take 8 = reqB.id.take 8
      ∧ mGet stAB.shortIdMap (reqA.id.take 8) = some reqB.id)
    ∧ (mGet (handleApprovalResolved stAB ⟨reqA.id, .deny, none, 0⟩).1.shortIdMap
          (reqA.id.take 8) = none
      ∧ mGet (handleApprovalResolved stAB ⟨reqA.id, .deny, none, 0⟩).1.pending reqB.id
          = some ⟨6, "1".toList, 1⟩
      ∧ handleCallbackQuery cfgOne true
          (handleApprovalResolved stAB ⟨reqA.id, .deny, none, 0⟩).1
          (reqA.id.take 8) .allowOnce (some ("1".toList)) = (false, [])) :=
  ⟨⟨by decide, by decide, by decide, by decide⟩,
    (c9_collision_delete_orphans_survivor stAB reqA.id reqB.id (reqA.id.take 8)
      ⟨5, "1".toList, 0⟩ ⟨6, "1".toList, 1⟩ .deny cfgOne true .allowOnce
      (some ("1".toList)) (by decide) (by decide) (by decide) (by decide)
      (by decide) (by decide)).1⟩

/-! ## Claim C10 -/

/-- C10: if every notification send fails for an accepted request, no
pending entry is created and no timer is armed, yet the request cache and
the short-id index still map the request; a subsequent authorized callback
with that short id still issues the gateway resolve request. -/
theorem c10_all_sends_fail_still_resolvable
    (rc : JSString → Option (JSString → Bool))
    (config : TelegramExecApprovalConfig) (sr : JSString → Option Nat)
    (now : Nat) (st0 : HandlerState) (request : ExecApprovalRequest)
    (u : JSString) (gatewayOk : Bool) (action : ExecApprovalDecision)
    (hsh : shouldHandle rc config request = true)
    (hp0 : mGet st0.pending request.id = none)
    (hfail : ∀ a ∈ config.approvers.getD [], sr a = none)
    (hgw : st0.gatewayClient = true)
    (hu : u ≠ [])
    (hmem : memberStr (config.approvers.getD []) u = true) :
    mGet (handleApprovalRequested rc sr now config st0 request).1.pending request.id = none
    ∧ (handleApprovalRequested rc sr now config st0 request).1.armedTimers
        = st0.armedTimers
    ∧ mGet (handleApprovalRequested rc sr now config st0 request).1.requestCache
        request.id = some request
    ∧ mGet (handleApprovalRequested rc sr now config st0 request).1.shortIdMap
        (request.id.take 8) = some request.id
    ∧ handleCallbackQuery config gatewayOk
        (handleApprovalRequested rc sr now config st0 request).1
        (request.id.take 8) action (some u)
        = (gatewayOk, [Effect.gatewayResolve request.id action]) := by
  have hs' : ¬(shouldHandle rc config request = false) := by rw [hsh]; simp
  unfold handleApprovalRequested
  rw [if_neg hs']
  rw [notify_all_fail sr now request _ _ _ hfail]
  refine ⟨hp0, rfl, ?_, ?_, ?_⟩
  · show mGet (mSet st0.requestCache request.id request) request.id = some request
    exact mGet_mSet_self _ _ _
  · show mGet (mSet st0.shortIdMap (request.id.take 8) request.id) (request.id.take 8)
      = some request.id
    exact mGet_mSet_self _ _ _
  · unfold handleCallbackQuery
    rw [show mGet (mSet st0.shortIdMap (request.id.take 8) request.id) (request.id.take 8)
        = some request.id from mGet_mSet_self _ _ _]
    have ht : jsTruthy (some u) = true := by
      cases u with
      | nil => exact absurd rfl hu
      | cons c t => rfl
    simp only [ht, Option.getD_some, hmem, Bool.not_true, Bool.and_false, if_false]
    unfold resolveApproval
    rw [show ({ st0 with
        requestCache := mSet st0.requestCache request.id request
        shortIdMap := mSet st0.shortIdMap (request.id.take 8) request.id
          : HandlerState }).gatewayClient = true from hgw]
    cases gatewayOk <;> simp

/-- C10 witness: with `cfgOne` every send fails (`srFail`), yet approver "1"
can still resolve `reqA` via its short id. -/
theorem c10_witness :
    (shouldHandle rcNone cfgOne reqA = true
      ∧ (cfgOne.approvers.getD []).all (fun a => (srFail a).isNone) = true
      ∧ memberStr (cfgOne.approvers.getD []) ("1".toList) = true)
    ∧ (mGet (handleApprovalRequested rcNone srFail 0 cfgOne initState reqA).1.pending
          reqA.id = none
      ∧ (handleApprovalRequested rcNone srFail 0 cfgOne initState reqA).1.armedTimers
          = initState.armedTimers
      ∧ mGet (handleApprovalRequested rcNone srFail 0 cfgOne initState reqA).1.requestCache
          reqA.id = some reqA
      ∧ mGet (handleApprovalRequested rcNone srFail 0 cfgOne initState reqA).1.shortIdMap
          (reqA.id.take 8) = some reqA.id
      ∧ handleCallbackQuery cfgOne true
          (handleApprovalRequested rcNone srFail 0 cfgOne initState reqA).1
          (reqA.id.take 8) .allowAlways (some ("1".toList))
          = (true, [Effect.gatewayResolve reqA.id .allowAlways])) :=
  ⟨⟨by decide, by decide, by decide⟩,
    c10_all_sends_fail_still_resolvable rcNone cfgOne srFail 0 initState reqA
      ("1".toList) true .allowAlways (by decide) (by decide) (fun a _ => rfl)
      (by decide) (by decide) (by decide)⟩

/-! ## Claim C3 -/

/-- C3 counterexample: with two approvers "1" and "2" both successfully
notified (send effects recorded for both), the resolution pass edits only
the message of the last notified recipient "2"; recipient "1", although
successfully notified, receives no update. -/
theorem c3_counterexample :
    (handleApprovalRequested rcNone srOk 0 cfgTwo initState reqA).2
      = [Effect.sentMessage ("1".toList) reqA.id true,
         Effect.sentMessage ("2".toList) reqA.id true]
    ∧ (handleApprovalResolved
        (handleApprovalRequested rcNone srOk 0 cfgTwo initState reqA).1
        ⟨reqA.id, .deny, none, 0⟩).2
      = [Effect.editMessage ("2".toList) 5]
    ∧ ("1".toList : JSString) ≠ "2".toList := by decide

/-- C3 (amended): the pending entry records only the message handle of the
most recently successfully notified recipient, and resolution updates only
that recipient's message (one edit pass, removing the controls). -/
theorem c3_last_notified_recipient_updated
    (rc : JSString → Option (JSString → Bool))
    (config : TelegramExecApprovalConfig) (sr : JSString → Option Nat)
    (now : Nat) (st0 : HandlerState) (request : ExecApprovalRequest)
    (chat : JSString) (mid : Nat) (d : ExecApprovalDecision)
    (rb : Option JSString) (ts : Nat)
    (hsh : shouldHandle rc config request = true)
    (hp0 : mGet st0.pending request.id = none)
    (hlast : lastSuccess sr (config.approvers.getD []) = some (chat, mid)) :
    (mGet (handleApprovalRequested rc sr now config st0 request).1.pending
        request.id).map projCM = some (chat, mid)
    ∧ (handleApprovalResolved
        (handleApprovalRequested rc sr now config st0 request).1
        ⟨request.id, d, rb, ts⟩).2 = [Effect.editMessage chat mid] := by
  have hs' : ¬(shouldHandle rc config request = false) := by rw [hsh]; simp
  unfold handleApprovalRequested
  rw [if_neg hs']
  have hpend := notify_pending sr now request (config.approvers.getD [])
    ({ st0 with
        requestCache := mSet st0.requestCache request.id request
        shortIdMap := mSet st0.shortIdMap (request.id.take 8) request.id }) []
  rw [hlast] at hpend
  have hpend' : (mGet (notifyApprovers sr now request (config.approvers.getD [])
      ({ st0 with
          requestCache := mSet st0.requestCache request.id request
          shortIdMap := mSet st0.shortIdMap (request.id.take 8) request.id }) []).1.pending
      request.id).map projCM = some (chat, mid) := hpend
  refine ⟨hpend', ?_⟩
  obtain ⟨e, he, hecm⟩ := Option.map_eq_some'.mp hpend'
  have hchat : e.telegramChatId = chat := congrArg Prod.fst hecm
  have hmid : e.telegramMessageId = mid := congrArg Prod.snd hecm
  have hc : mGet (notifyApprovers sr now request (config.approvers.getD [])
      ({ st0 with
          requestCache := mSet st0.requestCache request.id request
          shortIdMap := mSet st0.shortIdMap (request.id.take 8) request.id }) []).1.requestCache
      request.id = some request := by
    rw [notify_requestCache]
    exact mGet_mSet_self _ _ _
  rw [handleApprovalResolved_effects he hc, hchat, hmid]

/-- C3 witness: with approvers "1" and "2" and every send succeeding with
message id 5, the last success is ("2", 5) and resolution edits that
message. -/
theorem c3_witness :
    (shouldHandle rcNone cfgTwo reqA = true
      ∧ lastSuccess srOk (cfgTwo.approvers.getD []) = some ("2".toList, 5))
    ∧ ((mGet (handleApprovalRequested rcNone srOk 0 cfgTwo initState reqA).1.pending
          reqA.id).map projCM = some ("2".toList, 5)
      ∧ (handleApprovalResolved
          (handleApprovalRequested rcNone srOk 0 cfgTwo initState reqA).1
          ⟨reqA.id, .deny, none, 0⟩).2 = [Effect.editMessage ("2".toList) 5]) :=
  ⟨⟨by decide, by decide⟩,
    c3_last_notified_recipient_updated rcNone cfgTwo srOk 0 initState reqA
      ("2".toList) 5 .deny none 0 (by decide) (by decide) (by decide)⟩

/-! ## Claim C4 -/

/-- C4 counterexample: accepting a request with two approvers (both sends
succeeding) arms two timers but records only the last in the pending entry;
after the remote resolution only that one is cancelled, leaving an armed
timer that references a request with no pending entry. -/
theorem c4_counterexample :
    noDanglingTimers (runOps rcNone cfgTwo initState
      [Op.accept reqA srOk 0, Op.resolved ⟨reqA.id, .deny, none, 0⟩]) = false := by
  decide

/-- C4 (amended): provided every accepted request is not already pending and
has at most one successful notification send, then after any sequence of
accept, resolve, timer-fire and stop operations from the initial state, no
armed timer references a request without a pending entry; in particular the
timer recorded in a pending entry is cancelled whenever that entry is
removed. -/
theorem c4_no_dangling_timers (rc : JSString → Option (JSString → Bool))
    (config : TelegramExecApprovalConfig) (ops : List Op)
    (hg : goodOps rc config initState ops = true) :
    noDanglingTimers (runOps rc config initState ops) = true :=
  timersOk_noDangling (goodOps_timersOk rc config ops initState
    (fun t ht => absurd ht (List.not_mem_nil t)) hg)

/-- C4 witness: a single-approver trace with accept, resolve, a late timer
firing and shutdown is good and ends with no dangling timer. -/
theorem c4_witness :
    goodOps rcNone cfgOne initState
      [Op.accept reqA srOk 0, Op.resolved ⟨reqA.id, .deny, none, 0⟩,
       Op.fire 0, Op.stopOp] = true
    ∧ noDanglingTimers (runOps rcNone cfgOne initState
      [Op.accept reqA srOk 0, Op.resolved ⟨reqA.id, .deny, none, 0⟩,
       Op.fire 0, Op.stopOp]) = true :=
  ⟨by decide, c4_no_dangling_timers rcNone cfgOne _ (by decide)⟩

/-! ## Claim C5 -/

theorem listStartsWith_append (p r : JSString) : listStartsWith (p ++ r) p = true := by
  induction p with
  | nil => cases r <;> rfl
  | cons c t ih => simp [listStartsWith, ih]

theorem splitOnChar_token (s tag : JSString) (hs : ':' ∉ s) (htag : ':' ∉ tag) :
    splitOnChar ':' ((eaMark ++ [':']) ++ (s ++ ':' :: tag)) = [eaMark, s, tag] := by
  have h1 : (eaMark ++ [':']) ++ (s ++ ':' :: tag) = eaMark ++ ':' :: (s ++ ':' :: tag) := by
    simp
  rw [h1]
  rw [splitOnChar_append_sep _ (by decide)]
  rw [splitOnChar_append_sep _ hs]
  rw [splitOnChar_no_sep htag]

theorem parse_token (s tag : JSString) (a : ExecApprovalDecision)
    (hsne : s ≠ []) (hs : ':' ∉ s) (htag : ':' ∉ tag)
    (hdec : decisionOfTag tag = some a) :
    parseExecApprovalCallbackData (some ((eaMark ++ [':']) ++ (s ++ ':' :: tag)))
      = some (s, a) := by
  have hemp : ((eaMark ++ [':']) ++ (s ++ ':' :: tag)).isEmpty = false := rfl
  have hsw : listStartsWith ((eaMark ++ [':']) ++ (s ++ ':' :: tag)) (eaMark ++ [':'])
      = true := listStartsWith_append _ _
  have hse : s.isEmpty = false := by
    cases s with
    | nil => exact absurd rfl hsne
    | cons c t => rfl
  simp only [parseExecApprovalCallbackData]
  rw [if_neg (by rw [hemp]; simp)]
  rw [if_neg (by rw [hsw]; simp)]
  rw [splitOnChar_token s tag hs htag]
  show (match decisionOfTag tag with
    | none => (none : Option (JSString × ExecApprovalDecision))
    | some a0 => if s.isEmpty then none else some (s, a0)) = some (s, a)
  simp [hdec, hse]

/-- C5 counterexample: for the length-1 identifier ":" the decode of the
encode is `none`, not the claimed short id and decision. -/
theorem c5_counterexample :
    parseExecApprovalCallbackData
        (some (buildExecApprovalCallbackData [':'] .deny))
      ≠ some (([':'] : JSString).take 8, ExecApprovalDecision.deny) := by
  decide

/-- C5 (amended): for every identifier of length at least 1 whose first 8
characters contain no colon, and each of the three decisions, decoding the
encoded token yields the first 8 characters of the identifier (the whole
identifier if shorter) and the original decision. -/
theorem c5_roundtrip (id : JSString) (d : ExecApprovalDecision)
    (hne : id ≠ []) (hcolon : ':' ∉ id.take 8) :
    parseExecApprovalCallbackData (some (buildExecApprovalCallbackData id d))
      = some (id.take 8, d) := by
  have hsne : id.take 8 ≠ [] := by
    cases id with
    | nil => exact absurd rfl hne
    | cons c t => simp
  have hshape : ∀ tag : JSString,
      eaMark ++ [':'] ++ id.take 8 ++ [':'] ++ tag
        = (eaMark ++ [':']) ++ (id.take 8 ++ ':' :: tag) := by
    intro tag
    simp
  cases d with
  | allowOnce =>
    show parseExecApprovalCallbackData
        (some (eaMark ++ [':'] ++ id.take 8 ++ [':'] ++ ['o'])) = _
    rw [hshape]
    exact parse_token _ _ _ hsne hcolon (by decide) (by decide)
  | allowAlways =>
    show parseExecApprovalCallbackData
        (some (eaMark ++ [':'] ++ id.take 8 ++ [':'] ++ ['a'])) = _
    rw [hshape]
    exact parse_token _ _ _ hsne hcolon (by decide) (by decide)
  | deny =>
    show parseExecApprovalCallbackData
        (some (eaMark ++ [':'] ++ id.take 8 ++ [':'] ++ ['d'])) = _
    rw [hshape]
    exact parse_token _ _ _ hsne hcolon (by decide) (by decide)

/-- C5 witness: the spec's own scenario identifier round-trips. -/
theorem c5_witness :
    (("abc12345-6789-def0".toList : JSString) ≠ []
      ∧ ':' ∉ ("abc12345-6789-def0".toList : JSString).take 8)
    ∧ parseExecApprovalCallbackData
        (some (buildExecApprovalCallbackData ("abc12345-6789-def0".toList) .allowOnce))
      = some (("abc12345-6789-def0".toList : JSString).take 8, .allowOnce) :=
  ⟨⟨by decide, by decide⟩,
    c5_roundtrip ("abc12345-6789-def0".toList) .allowOnce (by decide) (by decide)⟩

/-! ## Claim C6 -/

/-- C6: when a session-filter pattern has no valid regex (the engine fails
to construct it), `shouldHandle` degrades that pattern to a literal
substring matcher and never rejects everything: with that single pattern
configured, a request passes exactly when its session key contains the
pattern as a substring. -/
theorem c6_invalid_regex_falls_back_to_substring
    (rc : JSString → Option (JSString → Bool))
    (p session : JSString) (config : TelegramExecApprovalConfig)
    (request : ExecApprovalRequest)
    (hinv : rc p = none)
    (hen : config.enabled = true)
    (happ : (config.approvers.getD []).length ≠ 0)
    (hag : config.agentFilter = none)
    (hse : config.sessionFilter = some [p])
    (hkey : request.request.sessionKey = some session)
    (hne : session ≠ []) :
    shouldHandle rc config request = containsSub session p := by
  have hagp : agentFilterPasses config request = true := by
    simp [agentFilterPasses, hag]
  have hne' : session.isEmpty = false := by
    cases session with
    | nil => exact absurd rfl hne
    | cons c t => rfl
  have hsess : sessionFilterPasses rc config request = containsSub session p := by
    simp only [sessionFilterPasses, hse, hkey]
    rw [if_neg (by rw [hne']; simp)]
    simp [sessionPatternMatch, hinv]
  unfold shouldHandle
  rw [hen]
  rw [if_neg (by simp)]
  rw [if_neg happ]
  rw [if_neg (by rw [hagp]; simp)]
  rw [hsess]
  cases containsSub session p <;> simp

/-- The session-filter pattern of the repository's own test: not a valid
regex. -/
def pInv : JSString := "[invalid(regex".toList

/-- A request whose session key contains `pInv` as a substring. -/
def reqS : ExecApprovalRequest :=
  { id := "sess-req-1".toList
    request := { command := "ls".toList, sessionKey := some ("x[invalid(regexY".toList) }
    createdAtMs := 0
    expiresAtMs := 1000 }

/-- Config with the invalid-regex session filter. -/
def cfgS : TelegramExecApprovalConfig :=
  { enabled := true, approvers := some ["1".toList], sessionFilter := some [pInv] }

/-- C6 witness: with the invalid pattern, the filter equals substring
containment, which holds for `reqS`. -/
theorem c6_witness :
    (rcNone pInv = none
      ∧ cfgS.sessionFilter = some [pInv]
      ∧ containsSub ("x[invalid(regexY".toList) pInv = true)
    ∧ shouldHandle rcNone cfgS reqS = containsSub ("x[invalid(regexY".toList) pInv :=
  ⟨⟨rfl, rfl, by decide⟩,
    c6_invalid_regex_falls_back_to_substring rcNone pInv ("x[invalid(regexY".toList)
      cfgS reqS rfl rfl (by decide) rfl rfl rfl (by decide)⟩

/-! ## Claim C7 -/

/-- A malformed callback token, in the taxonomy of the claim: null or
undefined input, a token that does not start with the exact "ea:" marker
(this includes the empty string), one that does not split into exactly 3
colon-delimited fields, one with an empty second field, or one whose third
field is not a recognised tag character. -/
def badCallbackToken (data : Option JSString) : Prop :=
  match data with
  | none => True
  | some d =>
    listStartsWith d (eaMark ++ [':']) = false
    ∨ (splitOnChar ':' d).length ≠ 3
    ∨ (∃ p1 p3, splitOnChar ':' d = [p1, [], p3])
    ∨ (∃ p1 p2 p3, splitOnChar ':' d = [p1, p2, p3]
        ∧ p3 ≠ ['o'] ∧ p3 ≠ ['a'] ∧ p3 ≠ ['d'])

/-- C7: decoding returns `none` (and, being a total function, never throws)
on every malformed input. -/
theorem c7_malformed_tokens_decode_to_none (data : Option JSString)
    (h : badCallbackToken data) : parseExecApprovalCallbackData data = none := by
  cases data with
  | none => rfl
  | some d =>
    simp only [parseExecApprovalCallbackData]
    by_cases hemp : d.isEmpty = true
    · rw [if_pos hemp]
    · rw [if_neg hemp]
      by_cases hsw : listStartsWith d (eaMark ++ [':']) = false
      · rw [if_pos hsw]
      · rw [if_neg hsw]
        simp only [badCallbackToken] at h
        rcases h with h1 | h2 | h3 | h4
        · exact absurd h1 hsw
        · cases hsp : splitOnChar ':' d with
          | nil => rfl
          | cons a1 t1 =>
            cases t1 with
            | nil => rfl
            | cons a2 t2 =>
              cases t2 with
              | nil => rfl
              | cons a3 t3 =>
                cases t3 with
                | nil => exact absurd (by simp [hsp]) h2
                | cons a4 t4 => rfl
        · obtain ⟨p1, p3, hsp⟩ := h3
          rw [hsp]
          show (match decisionOfTag p3 with
            | none => (none : Option (JSString × ExecApprovalDecision))
            | some a0 => if ([] : JSString).isEmpty then none else some ([], a0)) = none
          cases decisionOfTag p3 <;> rfl
        · obtain ⟨p1, p2, p3, hsp, h3o, h3a, h3d⟩ := h4
          rw [hsp]
          have hd : decisionOfTag p3 = none := by
            simp [decisionOfTag, h3o, h3a, h3d]
          show (match decisionOfTag p3 with
            | none => (none : Option (JSString × ExecApprovalDecision))
            | some a0 => if p2.isEmpty then none else some (p2, a0)) = none
          rw [hd]

/-- C7 witness: a token with an unrecognised tag character decodes to
`none`. -/
theorem c7_witness :
    splitOnChar ':' ("ea:abc12345:x".toList)
        = ["ea".toList, "abc12345".toList, "x".toList]
    ∧ parseExecApprovalCallbackData (some ("ea:abc12345:x".toList)) = none :=
  ⟨by decide,
    c7_malformed_tokens_decode_to_none (some ("ea:abc12345:x".toList))
      (Or.inr (Or.inr (Or.inr ⟨"ea".toList, "abc12345".toList, "x".toList,
        by decide, by decide, by decide, by decide⟩)))⟩
